import Mathlib

/-!
Shallow embedding of the oc-demo command-line tool (Go) for verification:
the HTTP authenticator (pkg/auth/authenticator.go), the secure terminal
reader (pkg/util/input.go), and the kubeconfig persistence performed by
the login and use-context commands (cmd/login.go, cmd/use_context.go).

Go strings are modelled as Lean `String`/`List Char`, Go byte values as
`Nat`, Go `time.Duration` as `Nat` (nanoseconds), and Go maps as
association lists. Network and terminal I/O are modelled by explicit
decision/trace values so that "no I/O happens on this path" is a
statement about which constructor is produced.
-/

deriving instance DecidableEq for Except

namespace OcDemo

/-- Model of Go `strings.Contains s sub`: `sub` occurs as a contiguous
substring of `s`. -/
def goContains (s sub : String) : Bool :=
  decide (sub.data <:+: s.data)

/-- Helper for `splitScheme`: scan for the first occurrence of `"://"`,
accumulating the (reversed) prefix scanned so far. Mirrors how Go
`net/url.Parse` locates the scheme separator on the restricted URL
grammar used by this repository (no userinfo, query, fragment or
percent-escapes, and no `:` before the separator). -/
def splitSchemeAux (acc : List Char) : List Char → Option (List Char × List Char)
  | [] => none
  | c :: rest =>
    if c = ':' ∧ rest.take 2 = ['/', '/'] then some (acc.reverse, rest.drop 2)
    else splitSchemeAux (c :: acc) rest

/-- Split a URL string at the first `"://"` into (scheme, remainder), or
`none` when the string has no scheme separator. -/
def splitScheme (s : List Char) : Option (List Char × List Char) :=
  splitSchemeAux [] s

/-- Model of Go `strings.TrimRight s "/"`: remove every trailing `'/'`. -/
def trimTrailingSlashes (s : List Char) : List Char :=
  (s.reverse.dropWhile (fun c => c = '/')).reverse

/-- Modelled from `NewAuthenticator` (authenticator.go lines 78–90)
composed with Go `net/url.Parse`/`URL.String`, on the restricted URL
grammar (no userinfo/query/fragment/escapes): parsing then re-printing is
the identity; when the string has no scheme separator, `url.Parse` puts
it in the path, setting the scheme to `https` makes `URL.String` print
`"https://" ++ s`; finally `strings.TrimRight _ "/"` removes the
trailing slashes. -/
def normalizeServerL (s : List Char) : List Char :=
  match splitScheme s with
  | some _ => trimTrailingSlashes s
  | none => trimTrailingSlashes ("https://".data ++ s)

/-- Modelled from `NewAuthenticator` (authenticator.go lines 92–95): a
non-empty auth path not beginning with `'/'` gets one prepended. -/
def normalizeAuthPathL (p : List Char) : List Char :=
  if p ≠ [] ∧ p.head? ≠ some '/' then '/' :: p else p

/-- String-level wrapper of `normalizeServerL`. -/
def normalizeServer (s : String) : String :=
  String.mk (normalizeServerL s.data)

/-- String-level wrapper of `normalizeAuthPathL`. -/
def normalizeAuthPath (p : String) : String :=
  String.mk (normalizeAuthPathL p.data)

/-- True when the character list contains no two adjacent slashes. -/
def noDoubleSlashB : List Char → Bool
  | [] => true
  | [_] => true
  | a :: b :: rest => !(a == '/' && b == '/') && noDoubleSlashB (b :: rest)

/-- The part of a URL after its scheme separator (the whole string when
no separator is present). -/
def dropSchemeL (s : List Char) : List Char :=
  match splitScheme s with
  | some q => q.2
  | none => s

/-- Model of `auth.Config` (authenticator.go lines 43–52). `timeout` is
in nanoseconds, as Go `time.Duration`. -/
structure Config where
  server : String
  authPath : String
  timeout : Nat
  insecureSkipVerify : Bool
deriving DecidableEq

/-- Model of `auth.DefaultConfig` (authenticator.go lines 55–60): Go zero
values for `Server` and `InsecureSkipVerify`, `AuthPath` `"/auth"`,
`Timeout` ten seconds. -/
def DefaultConfig : Config :=
  { server := "", authPath := "/auth", timeout := 10000000000, insecureSkipVerify := false }

/-- Model of the `http.Client` built in `NewAuthenticator` (lines
97–107): its observable configuration is the timeout and the TLS
verification policy of its transport. -/
structure HTTPClient where
  timeout : Nat
  insecureSkipVerify : Bool
deriving DecidableEq

/-- Model of `httpAuthenticator` (authenticator.go lines 62–66): the
normalized configuration plus the constructed HTTP client. -/
structure Authenticator where
  config : Config
  client : HTTPClient
deriving DecidableEq

/-- Construction error of `NewAuthenticator` (`ErrInvalidServer`). -/
inductive ConstructError where
  | invalidServer
deriving DecidableEq

/-- Model of `auth.NewAuthenticator` (authenticator.go lines 69–113): a
`none` argument models the Go `nil` config, replaced by `DefaultConfig`;
an empty server is rejected; otherwise the server URL and auth path are
normalized and the HTTP client is built from the timeout and
`insecureSkipVerify`. The `url.Parse` failure branch (line 80) is
unreachable on the restricted URL grammar modelled here. -/
def NewAuthenticator (config : Option Config) : Except ConstructError Authenticator :=
  let cfg := config.getD DefaultConfig
  if cfg.server = "" then
    Except.error ConstructError.invalidServer
  else
    Except.ok
      { config :=
          { cfg with
            server := normalizeServer cfg.server
            authPath := normalizeAuthPath cfg.authPath }
        client := { timeout := cfg.timeout, insecureSkipVerify := cfg.insecureSkipVerify } }

/-- Model of `auth.Credentials` (authenticator.go lines 25–28), the JSON
request body `{"username": ..., "password": ...}`. -/
structure Credentials where
  username : String
  password : String
deriving DecidableEq

/-- Model of `auth.AuthResponse` (authenticator.go lines 31–34), the
decoded response body; an absent `error` field decodes to `""`. -/
structure AuthResponse where
  token : String
  error : String
deriving DecidableEq

/-- The pre-network control flow of `httpAuthenticator.Authenticate`
(authenticator.go lines 116–150): which outcome is decided before any
request is sent. `sendRequest` carries the request URL and the
serialized credentials, i.e. network I/O happens exactly on that
constructor; the other two constructors return before any URL is built
or any request is created. -/
inductive AuthPhase where
  | failEmptyCredentials
  | testBypass (token : String)
  | sendRequest (url : String) (body : Credentials)
deriving DecidableEq

/-- Model of `httpAuthenticator.Authenticate` up to the network call
(authenticator.go lines 116–150): empty credentials are rejected first;
a configured server containing `"test.com"` short-circuits with the
fixed token; otherwise the POST goes to `config.Server + config.AuthPath`
with the JSON-serialized credentials (`json.Marshal` of two strings
cannot fail). -/
def authenticatePhase (a : Authenticator) (username password : String) : AuthPhase :=
  if username = "" ∨ password = "" then
    AuthPhase.failEmptyCredentials
  else if goContains a.config.server "test.com" = true then
    AuthPhase.testBypass "test-token"
  else
    AuthPhase.sendRequest (a.config.server ++ a.config.authPath)
      { username := username, password := password }

/-- The errors `Authenticate` can produce after a response body was
decoded, plus the sentinel errors; each carries exactly the data its Go
error message interpolates. -/
inductive AuthError where
  | emptyCredentials
  | emptyToken
  | authFailedMessage (msg : String)
  | authFailedStatus (code : Nat)
deriving DecidableEq

/-- The Go error message of each `AuthError` (authenticator.go lines 16,
19, 176, 178). -/
def AuthError.message : AuthError → String
  | AuthError.emptyCredentials => "username and password are required"
  | AuthError.emptyToken => "received empty token from server"
  | AuthError.authFailedMessage msg => "authentication failed: " ++ msg
  | AuthError.authFailedStatus code =>
      "authentication failed with status code: " ++ toString code

/-- Model of the response handling of `httpAuthenticator.Authenticate`
(authenticator.go lines 173–185), applied once the body has been decoded
into an `AuthResponse`: a non-200 status fails with the server-provided
error string when present, else with a generic status-code error; a 200
status with an empty token fails with `ErrEmptyToken`; otherwise the
token is returned. -/
def handleResponse (statusCode : Nat) (resp : AuthResponse) : Except AuthError String :=
  if statusCode ≠ 200 then
    if resp.error ≠ "" then Except.error (AuthError.authFailedMessage resp.error)
    else Except.error (AuthError.authFailedStatus statusCode)
  else if resp.token = "" then Except.error AuthError.emptyToken
  else Except.ok resp.token

/-- The pre-network control flow of the package-level `auth.Authenticate`
wrapper (authenticator.go lines 189–209): its own empty-credentials and
`"test.com"` checks, then construction of an authenticator from a config
holding only the server (Go zero values elsewhere) and delegation to the
method. -/
inductive TopAuthPhase where
  | failEmptyCredentials
  | testBypass (token : String)
  | failConstruct (e : ConstructError)
  | delegated (a : Authenticator) (phase : AuthPhase)
deriving DecidableEq

/-- Model of the package-level `auth.Authenticate` (authenticator.go
lines 189–209) up to the network call. -/
def authenticateTop (server username password : String) : TopAuthPhase :=
  if username = "" ∨ password = "" then
    TopAuthPhase.failEmptyCredentials
  else if goContains server "test.com" = true then
    TopAuthPhase.testBypass "test-token"
  else
    match NewAuthenticator (some { server := server, authPath := "", timeout := 0, insecureSkipVerify := false }) with
    | Except.error e => TopAuthPhase.failConstruct e
    | Except.ok a => TopAuthPhase.delegated a (authenticatePhase a username password)

/-! Secure terminal reader (pkg/util/input.go). -/

/-- How a `ReadSecurely` invocation can fail: the user pressed Ctrl+C
(byte 3, Go error "interrupted by user"), or the underlying `Read`
returned an error (in this model, the finite input stream was exhausted
without a terminator, as with `io.EOF`). -/
inductive ReadError where
  | interrupted
  | readFailed
deriving DecidableEq

/-- Terminal-side effects of `ReadSecurely`, in program order: writes to
standard output, the `terminal.GetState` call recording the prior state,
a (hypothetical) switch of the terminal into raw mode, and the deferred
`terminal.Restore`. -/
inductive TermAction where
  | writeOut (s : String)
  | getTermState
  | makeRaw
  | restoreTerm
deriving DecidableEq

/-- Prepend a terminal action to the trace of a loop continuation. -/
def consTrace (a : TermAction)
    (p : List TermAction × Except ReadError (List Nat)) :
    List TermAction × Except ReadError (List Nat) :=
  (a :: p.1, p.2)

/-- Model of the byte-read loop of `ReadSecurely` (input.go lines
88–118), over a finite stream of byte values. `password` is the buffer
accumulated so far. Carriage return or newline (13, 10) succeeds with
the buffer after echoing a newline; byte 3 aborts with `interrupted`;
backspace or delete (8, 127) drops the last buffered byte and erases one
display position when the buffer is non-empty, else does nothing;
printable bytes (32–126) are appended and echoed as `"*"`; all other
bytes are ignored; exhausting the stream is a failing `Read`, returned
as an error. -/
def readLoopTrace (password : List Nat) :
    List Nat → List TermAction × Except ReadError (List Nat)
  | [] => ([], Except.error ReadError.readFailed)
  | c :: rest =>
    if c = 13 ∨ c = 10 then
      ([TermAction.writeOut "\n"], Except.ok password)
    else if c = 3 then
      ([], Except.error ReadError.interrupted)
    else if c = 8 ∨ c = 127 then
      if password = [] then readLoopTrace password rest
      else consTrace (TermAction.writeOut "\x08 \x08") (readLoopTrace password.dropLast rest)
    else if 32 ≤ c ∧ c ≤ 126 then
      consTrace (TermAction.writeOut "*") (readLoopTrace (password ++ [c]) rest)
    else readLoopTrace password rest

/-- Go `string(password)` on the ASCII byte buffer. -/
def bytesToString (bs : List Nat) : String :=
  String.mk (bs.map Char.ofNat)

/-- Model of `terminalInputReader.ReadSecurely` (input.go lines 74–119),
for a run where `terminal.GetState` succeeds: the prompt is written,
the terminal state is recorded, the byte loop runs, and the deferred
`terminal.Restore` fires after the loop's result is decided, on every
exit path. Note that the source calls `terminal.GetState` and the
deferred `terminal.Restore` only: no call switches the terminal into raw
mode, so `TermAction.makeRaw` is never emitted. -/
def readSecurelyTrace (prompt : String) (input : List Nat) :
    List TermAction × Except ReadError String :=
  let p := readLoopTrace [] input
  (TermAction.writeOut prompt :: TermAction.getTermState :: (p.1 ++ [TermAction.restoreTerm]),
   p.2.map bytesToString)

/-- The value `ReadSecurely` returns on the given byte stream. -/
def readSecurelyResult (input : List Nat) : Except ReadError String :=
  ((readLoopTrace [] input).2).map bytesToString

/-! Kubeconfig persistence (cmd/login.go, cmd/use_context.go). The
`k8s.io/client-go` `api.Config` is modelled by its fields this program
touches; Go maps become association lists. -/

/-- Model of a kubeconfig cluster record: the fields login sets
(`Server`, `InsecureSkipTLSVerify`). -/
structure Cluster where
  server : String
  insecureSkipTLSVerify : Bool
deriving DecidableEq

/-- Model of a kubeconfig auth-info (credential) record: the field login
sets (`Token`). -/
structure AuthInfo where
  token : String
deriving DecidableEq

/-- Model of a kubeconfig context record: the fields login sets
(`Cluster`, `AuthInfo`). -/
structure Context where
  cluster : String
  authInfo : String
deriving DecidableEq

/-- Model of `api.Config`: the cluster, auth-info and context maps and
the current context name. -/
structure KubeConfig where
  clusters : List (String × Cluster)
  authInfos : List (String × AuthInfo)
  contexts : List (String × Context)
  currentContext : String
deriving DecidableEq

/-- Model of `api.NewConfig()`: empty maps, empty current context. -/
def KubeConfig.new : KubeConfig :=
  { clusters := [], authInfos := [], contexts := [], currentContext := "" }

/-- Model of the authenticator configuration built by the login command
(login.go lines 68–71): `&auth.Config{Server: server}`, i.e. Go zero
values for every other field. The value of the registered
`--insecure-skip-tls-verify` flag is a parameter to make visible that
the code never consults it. -/
def loginAuthConfig (server : String) (_insecureFlag : Bool) : Config :=
  { server := server, authPath := "", timeout := 0, insecureSkipVerify := false }

/-- Model of the kubeconfig written by a successful login (login.go
lines 84–124): the code starts from `api.NewConfig()` — it never reads
the prior on-disk file, which is a parameter here only to make that
visible — inserts one cluster record with `InsecureSkipTLSVerify`
hard-coded `true` (line 89, regardless of the flag parameter), one
auth-info record with the token, one context record, all keyed by the
server, and sets the current context to the server. -/
def loginWriteConfig (_priorOnDisk : KubeConfig) (server authToken : String)
    (_insecureFlag : Bool) : KubeConfig :=
  { KubeConfig.new with
    clusters := [(server, { server := server, insecureSkipTLSVerify := true })]
    authInfos := [(server, { token := authToken })]
    contexts := [(server, { cluster := server, authInfo := server })]
    currentContext := server }

/-- The use-context command's failure (use_context.go line 41): the
requested context name is not a key of the contexts map. -/
inductive UseContextError where
  | contextNotFound (name : String)
deriving DecidableEq

/-- Model of the context switch of the use-context command
(use_context.go lines 40–45): error when the name is absent from the
contexts map, else set `CurrentContext` and change nothing else. -/
def useContextSwitch (config : KubeConfig) (contextName : String) :
    Except UseContextError KubeConfig :=
  if (config.contexts.lookup contextName).isSome then
    Except.ok { config with currentContext := contextName }
  else
    Except.error (UseContextError.contextNotFound contextName)

/-- The on-disk file after a use-context invocation (use_context.go
lines 40–50): on success the switched config is written back; on
failure the command returns before `clientcmd.WriteToFile`, leaving the
file as loaded. -/
def useContextWrittenFile (onDisk : KubeConfig) (contextName : String) : KubeConfig :=
  match useContextSwitch onDisk contextName with
  | Except.ok c => c
  | Except.error _ => onDisk

/-! Concrete values used by witnesses. -/

/-- A concrete authenticator value, as `NewAuthenticator` builds it for
the server "https://test.com" with the default timeout. -/
def sampleAuth : Authenticator :=
  { config :=
      { server := "https://test.com", authPath := "/auth"
        timeout := 10000000000, insecureSkipVerify := false }
    client := { timeout := 10000000000, insecureSkipVerify := false } }

/-- A concrete two-context kubeconfig file. -/
def fileAB : KubeConfig :=
  { clusters := [("a", { server := "a", insecureSkipTLSVerify := false }),
                 ("b", { server := "b", insecureSkipTLSVerify := false })]
    authInfos := [("a", { token := "ta" }), ("b", { token := "tb" })]
    contexts := [("a", { cluster := "a", authInfo := "a" }),
                 ("b", { cluster := "b", authInfo := "b" })]
    currentContext := "a" }

/-- A concrete on-disk kubeconfig holding server "https://a"'s records. -/
def priorA : KubeConfig :=
  { clusters := [("https://a", { server := "https://a", insecureSkipTLSVerify := true })]
    authInfos := [("https://a", { token := "tokA" })]
    contexts := [("https://a", { cluster := "https://a", authInfo := "https://a" })]
    currentContext := "https://a" }

/-! Claim theorems. -/

/-- C1: refuted by the code. The login command builds the written
kubeconfig from `api.NewConfig()` and never reads the prior on-disk
file, so a successful login to "https://b" over a file holding
"https://a"'s records erases every record keyed by "https://a", and two
sequential logins to two distinct servers leave a file with a single
cluster entry (the most recent server), not two coexisting entries. -/
theorem login_discards_prior_entries :
    (loginWriteConfig priorA "https://b" "tokB" false).clusters.lookup "https://a" = none ∧
    (loginWriteConfig priorA "https://b" "tokB" false).authInfos.lookup "https://a" = none ∧
    (loginWriteConfig priorA "https://b" "tokB" false).contexts.lookup "https://a" = none ∧
    (loginWriteConfig priorA "https://b" "tokB" false).currentContext = "https://b" ∧
    (loginWriteConfig (loginWriteConfig KubeConfig.new "https://a" "tokA" false)
        "https://b" "tokB" false).clusters =
      [("https://b", { server := "https://b", insecureSkipTLSVerify := true })] := by
  decide

/-- C2: refuted by the code. The "/auth" default exists only in
`DefaultConfig`, which `NewAuthenticator` substitutes only for a nil
config — and that construction always fails with `ErrInvalidServer`
because the default server is empty. An authenticator built from a
config that leaves `authPath` unset (empty) sends the POST to the bare
server URL, not to `{server}/auth`. -/
theorem authPath_default_never_applied :
    (NewAuthenticator (some { server := "https://h", authPath := "",
                              timeout := 0, insecureSkipVerify := false })).map
        (fun a => authenticatePhase a "u" "p") =
      Except.ok (AuthPhase.sendRequest "https://h" { username := "u", password := "p" }) ∧
    ("https://h" : String) ≠ "https://h" ++ "/auth" ∧
    NewAuthenticator none = Except.error ConstructError.invalidServer ∧
    DefaultConfig.authPath = "/auth" := by
  decide

/-- C3: with either credential field empty, both the method-level and
the package-level `Authenticate` decide `EmptyCredentials` in the
pre-network phase: the produced decision is the constructor that carries
no request URL and no body, i.e. the failure is fixed before any URL is
built, any body is serialized, or any request is sent. -/
theorem authenticate_empty_credentials (a : Authenticator)
    (server username password : String) (h : username = "" ∨ password = "") :
    authenticatePhase a username password = AuthPhase.failEmptyCredentials ∧
    authenticateTop server username password = TopAuthPhase.failEmptyCredentials := by
  rcases h with h | h <;> subst h <;>
    exact ⟨by simp [authenticatePhase], by simp [authenticateTop]⟩

/-- C3 witness: the theorem applied with an empty username against a
concrete authenticator and server. -/
theorem authenticate_empty_credentials_witness :
    authenticatePhase sampleAuth "" "pw" = AuthPhase.failEmptyCredentials ∧
    authenticateTop "https://h" "" "pw" = TopAuthPhase.failEmptyCredentials :=
  ⟨(authenticate_empty_credentials sampleAuth "https://h" "" "pw" (Or.inl rfl)).1,
   (authenticate_empty_credentials sampleAuth "https://h" "" "pw" (Or.inl rfl)).2⟩

/-- C4: an authenticator whose configured server contains "test.com"
returns the fixed token "test-token" for any non-empty credentials
without reaching the network phase, and the package-level wrapper
short-circuits the same way on its raw server argument. -/
theorem authenticate_testcom_bypass (a : Authenticator)
    (server username password : String)
    (ha : goContains a.config.server "test.com" = true)
    (hs : goContains server "test.com" = true)
    (hu : username ≠ "") (hp : password ≠ "") :
    authenticatePhase a username password = AuthPhase.testBypass "test-token" ∧
    authenticateTop server username password = TopAuthPhase.testBypass "test-token" := by
  constructor
  · simp [authenticatePhase, hu, hp, ha]
  · simp [authenticateTop, hu, hp, hs]

/-- C4 witness: the theorem applied at the concrete authenticator whose
server is "https://test.com". -/
theorem authenticate_testcom_bypass_witness :
    authenticatePhase sampleAuth "admin" "pw" = AuthPhase.testBypass "test-token" ∧
    authenticateTop "https://test.com" "admin" "pw" = TopAuthPhase.testBypass "test-token" :=
  ⟨(authenticate_testcom_bypass sampleAuth "https://test.com" "admin" "pw"
      (by decide) (by decide) (by decide) (by decide)).1,
   (authenticate_testcom_bypass sampleAuth "https://test.com" "admin" "pw"
      (by decide) (by decide) (by decide) (by decide)).2⟩

/-- C6: for every response whose body decoded into an `AuthResponse`: a
non-200 status with a non-empty decoded error string fails with that
message (and the message contains the server-provided string); a non-200
status with no error string fails with the generic message containing
the numeric status code; a 200 status with an empty token fails with
`EmptyToken`; a 200 status with a non-empty token returns that token. -/
theorem handleResponse_spec (status : Nat) (resp : AuthResponse) :
    (status ≠ 200 → resp.error ≠ "" →
      handleResponse status resp = Except.error (AuthError.authFailedMessage resp.error) ∧
      resp.error.data <:+: (AuthError.authFailedMessage resp.error).message.data) ∧
    (status ≠ 200 → resp.error = "" →
      handleResponse status resp = Except.error (AuthError.authFailedStatus status) ∧
      (toString status).data <:+: (AuthError.authFailedStatus status).message.data) ∧
    (status = 200 → resp.token = "" →
      handleResponse status resp = Except.error AuthError.emptyToken) ∧
    (status = 200 → resp.token ≠ "" →
      handleResponse status resp = Except.ok resp.token) := by
  refine ⟨fun h he => ⟨by simp [handleResponse, h, he], ?_⟩,
          fun h he => ⟨by simp [handleResponse, h, he], ?_⟩,
          fun h ht => by simp [handleResponse, h, ht],
          fun h ht => by simp [handleResponse, h, ht]⟩
  · show resp.error.data <:+: ("authentication failed: " ++ resp.error).data
    rw [String.data_append]
    exact (List.suffix_append _ _).isInfix
  · show (toString status).data <:+:
      ("authentication failed with status code: " ++ toString status).data
    rw [String.data_append]
    exact (List.suffix_append _ _).isInfix

/-- C6 witness: the theorem applied at the spec's concrete cases — a 500
response with no error string, a 404 response carrying "bad creds", a
200 response with an empty token, and a 200 response with token "abc". -/
theorem handleResponse_spec_witness :
    (handleResponse 500 { token := "", error := "" } =
        Except.error (AuthError.authFailedStatus 500) ∧
      (toString 500).data <:+: (AuthError.authFailedStatus 500).message.data) ∧
    handleResponse 404 { token := "", error := "bad creds" } =
      Except.error (AuthError.authFailedMessage "bad creds") ∧
    handleResponse 200 { token := "", error := "" } = Except.error AuthError.emptyToken ∧
    handleResponse 200 { token := "abc", error := "" } = Except.ok "abc" :=
  ⟨(handleResponse_spec 500 { token := "", error := "" }).2.1 (by decide) rfl,
   ((handleResponse_spec 404 { token := "", error := "bad creds" }).1
      (by decide) (by decide)).1,
   (handleResponse_spec 200 { token := "", error := "" }).2.2.1 rfl rfl,
   (handleResponse_spec 200 { token := "abc", error := "" }).2.2.2 rfl (by decide)⟩

/-- C9: for every loaded configuration file and context name — a name
present in the contexts map makes the switch succeed with
`currentContext` set to it and every other field untouched, and that
switched file is what gets written; an absent name fails with
`ContextNotFound` and the on-disk file is left exactly as loaded. -/
theorem useContext_switch_spec (config : KubeConfig) (contextName : String) :
    ((config.contexts.lookup contextName).isSome = true →
      useContextSwitch config contextName =
        Except.ok { config with currentContext := contextName } ∧
      useContextWrittenFile config contextName =
        { config with currentContext := contextName }) ∧
    (config.contexts.lookup contextName = none →
      useContextSwitch config contextName =
        Except.error (UseContextError.contextNotFound contextName) ∧
      useContextWrittenFile config contextName = config) := by
  constructor
  · intro h
    simp [useContextSwitch, useContextWrittenFile, h]
  · intro h
    simp [useContextSwitch, useContextWrittenFile, h]

/-- C9 witness: the theorem applied at the concrete two-context file,
with the present target "b" and the absent target "c". -/
theorem useContext_switch_spec_witness :
    (useContextSwitch fileAB "b" = Except.ok { fileAB with currentContext := "b" } ∧
      useContextWrittenFile fileAB "b" = { fileAB with currentContext := "b" }) ∧
    (useContextSwitch fileAB "c" =
        Except.error (UseContextError.contextNotFound "c") ∧
      useContextWrittenFile fileAB "c" = fileAB) :=
  ⟨(useContext_switch_spec fileAB "b").1 (by decide),
   (useContext_switch_spec fileAB "c").2 (by decide)⟩

/-- C10: refuted by the code. The `--insecure-skip-tls-verify` flag is
registered but never read: the written kubeconfig is independent of the
flag's value and its cluster record hard-codes
`insecureSkipTLSVerify = true` — not `false` as the claim states for a
login without the flag — while the authenticator config is built as
`&auth.Config{Server: server}`, so its `insecureSkipVerify` is always
`false` whatever the flag said. -/
theorem login_ignores_insecure_flag :
    (∀ (prior : KubeConfig) (server authToken : String) (flag1 flag2 : Bool),
      loginWriteConfig prior server authToken flag1 =
        loginWriteConfig prior server authToken flag2) ∧
    (∀ (server : String) (flag : Bool),
      (loginAuthConfig server flag).insecureSkipVerify = false) ∧
    (loginWriteConfig KubeConfig.new "https://h" "tok" false).clusters.lookup "https://h" =
      some { server := "https://h", insecureSkipTLSVerify := true } :=
  ⟨fun _ _ _ _ _ => rfl, fun _ _ => rfl, by decide⟩

/-- C7: the secure reader computes its result as a left fold over the
byte stream: carriage return or newline (13, 10) terminates successfully
with the (possibly empty) buffer, byte 3 terminates with the
`Interrupted` error and the accumulated buffer is discarded (the error
carries no buffer), backspace or delete (8, 127) removes the last
buffered character and is a no-op on an empty buffer, printable bytes
(32–126) are appended, every other byte is ignored, and a failing read
(here, the exhausted stream) aborts with that error; in particular the
stream "ab<delete>c<return>" yields "ac" and a lone return yields "". -/
theorem readSecurely_fold_spec :
    (∀ (acc rest : List Nat),
      (readLoopTrace acc (13 :: rest)).2 = Except.ok acc ∧
      (readLoopTrace acc (10 :: rest)).2 = Except.ok acc) ∧
    (∀ (acc rest : List Nat),
      (readLoopTrace acc (3 :: rest)).2 = Except.error ReadError.interrupted) ∧
    (∀ (acc rest : List Nat),
      (readLoopTrace acc (8 :: rest)).2 = (readLoopTrace acc.dropLast rest).2 ∧
      (readLoopTrace acc (127 :: rest)).2 = (readLoopTrace acc.dropLast rest).2) ∧
    (∀ (rest : List Nat),
      (readLoopTrace [] (8 :: rest)).2 = (readLoopTrace [] rest).2 ∧
      (readLoopTrace [] (127 :: rest)).2 = (readLoopTrace [] rest).2) ∧
    (∀ (acc rest : List Nat) (c : Nat), 32 ≤ c → c ≤ 126 →
      (readLoopTrace acc (c :: rest)).2 = (readLoopTrace (acc ++ [c]) rest).2) ∧
    (∀ (acc rest : List Nat) (c : Nat),
      c ≠ 13 → c ≠ 10 → c ≠ 3 → c ≠ 8 → c ≠ 127 → (c < 32 ∨ 126 < c) →
      (readLoopTrace acc (c :: rest)).2 = (readLoopTrace acc rest).2) ∧
    (∀ (acc : List Nat), (readLoopTrace acc []).2 = Except.error ReadError.readFailed) ∧
    readSecurelyResult [97, 98, 127, 99, 13] = Except.ok "ac" ∧
    readSecurelyResult [13] = Except.ok "" := by
  refine ⟨?_, ?_, ?_, ?_, ?_, ?_, ?_, ?_, ?_⟩
  · intro acc rest
    constructor <;> simp [readLoopTrace]
  · intro acc rest
    simp [readLoopTrace]
  · intro acc rest
    rcases Decidable.em (acc = []) with h | h <;>
      constructor <;> simp [readLoopTrace, consTrace, h]
  · intro rest
    constructor <;> simp [readLoopTrace]
  · intro acc rest c h1 h2
    have hret : ¬(c = 13 ∨ c = 10) := by omega
    have hint : ¬c = 3 := by omega
    have hbs : ¬(c = 8 ∨ c = 127) := by omega
    have hpr : 32 ≤ c ∧ c ≤ 126 := ⟨h1, h2⟩
    simp [readLoopTrace, consTrace, hret, hint, hbs, hpr]
  · intro acc rest c h13 h10 h3 h8 h127 hout
    have hret : ¬(c = 13 ∨ c = 10) := by omega
    have hbs : ¬(c = 8 ∨ c = 127) := by omega
    have hpr : ¬(32 ≤ c ∧ c ≤ 126) := by omega
    simp [readLoopTrace, hret, h3, hbs, hpr]
  · intro acc
    simp [readLoopTrace]
  · decide
  · decide

/-- C7 witness: the fold equations applied at concrete inputs — the
printable byte 65 appended to an empty buffer, and the non-printable,
non-control byte 2 ignored. -/
theorem readSecurely_fold_spec_witness :
    (readLoopTrace [] [65, 13]).2 = (readLoopTrace [65] [13]).2 ∧
    (readLoopTrace [1] [2, 13]).2 = (readLoopTrace [1] [13]).2 :=
  ⟨readSecurely_fold_spec.2.2.2.2.1 [] [13] 65 (by decide) (by decide),
   readSecurely_fold_spec.2.2.2.2.2.1 [1] [13] 2 (by decide) (by decide)
     (by decide) (by decide) (by decide) (by decide)⟩

/-- The byte-read loop never emits a raw-mode switch: the source calls
`terminal.GetState` and the deferred `terminal.Restore` only. -/
theorem makeRaw_not_mem_readLoopTrace (input : List Nat) :
    ∀ acc, TermAction.makeRaw ∉ (readLoopTrace acc input).1 := by
  induction input with
  | nil => intro acc; simp [readLoopTrace]
  | cons c rest ih =>
    intro acc
    rcases Decidable.em (c = 13 ∨ c = 10) with h1 | h1
    · simp [readLoopTrace, h1]
    · rcases Decidable.em (c = 3) with h2 | h2
      · simp [readLoopTrace, h1, h2]
      · rcases Decidable.em (c = 8 ∨ c = 127) with h3 | h3
        · rcases Decidable.em (acc = []) with h4 | h4
          · simpa [readLoopTrace, h1, h2, h3, h4] using ih acc
          · simpa [readLoopTrace, consTrace, h1, h2, h3, h4] using ih acc.dropLast
        · rcases Decidable.em (32 ≤ c ∧ c ≤ 126) with h5 | h5
          · simpa [readLoopTrace, consTrace, h1, h2, h3, h5] using ih (acc ++ [c])
          · simpa [readLoopTrace, h1, h2, h3, h5] using ih acc

/-- C8: refuted by the code as far as raw mode is concerned, confirmed
for restoration. On every invocation and byte stream the trace starts by
writing the prompt and recording the terminal state, and its final
terminal action — on every exit path: normal completion, interrupt, or
read error — is the deferred restore of the recorded state. But no
action in any trace ever switches the terminal into raw mode:
`ReadSecurely` calls `terminal.GetState` (which only *reads* the state)
and never `terminal.MakeRaw`, despite its own "failed to set terminal to
raw mode" error text. -/
theorem readSecurely_restores_but_never_raw (prompt : String) (input : List Nat) :
    TermAction.makeRaw ∉ (readSecurelyTrace prompt input).1 ∧
    (readSecurelyTrace prompt input).1.take 2 =
      [TermAction.writeOut prompt, TermAction.getTermState] ∧
    (readSecurelyTrace prompt input).1.getLast? = some TermAction.restoreTerm := by
  refine ⟨?_, rfl, ?_⟩
  · simpa [readSecurelyTrace] using makeRaw_not_mem_readLoopTrace input []
  · show (TermAction.writeOut prompt :: TermAction.getTermState ::
      ((readLoopTrace [] input).1 ++ [TermAction.restoreTerm])).getLast? =
        some TermAction.restoreTerm
    rw [← List.cons_append, ← List.cons_append, List.getLast?_concat]

/-- Scanning a list that is a scheme (with no colon) followed by the
separator finds exactly that split. -/
theorem splitSchemeAux_sep (sch : List Char) (h : ':' ∉ sch) :
    ∀ (acc rest : List Char),
      splitSchemeAux acc (sch ++ ':' :: '/' :: '/' :: rest) =
        some (acc.reverse ++ sch, rest) := by
  induction sch with
  | nil =>
    intro acc rest
    simp [splitSchemeAux]
  | cons c cs ih =>
    intro acc rest
    have hc : ¬(c = ':') := fun hh => h (by simp [hh])
    have hcs : ':' ∉ cs := fun hh => h (List.mem_cons_of_mem c hh)
    simp [splitSchemeAux, hc, ih hcs (c :: acc) rest, List.append_assoc]

/-- Scanning a list with no colon finds no scheme separator. -/
theorem splitSchemeAux_none (l : List Char) (h : ':' ∉ l) :
    ∀ acc, splitSchemeAux acc l = none := by
  induction l with
  | nil => intro acc; simp [splitSchemeAux]
  | cons c cs ih =>
    intro acc
    have hc : ¬(c = ':') := fun hh => h (by simp [hh])
    have hcs : ':' ∉ cs := fun hh => h (List.mem_cons_of_mem c hh)
    simp [splitSchemeAux, hc, ih hcs]

/-- `splitScheme` on a scheme followed by the separator. -/
theorem splitScheme_sep (sch rest : List Char) (h : ':' ∉ sch) :
    splitScheme (sch ++ ':' :: '/' :: '/' :: rest) = some (sch, rest) := by
  unfold splitScheme
  rw [splitSchemeAux_sep sch h]
  simp

/-- `dropSchemeL` on a scheme followed by the separator returns the
remainder. -/
theorem dropSchemeL_sep (sch rest : List Char) (h : ':' ∉ sch) :
    dropSchemeL (sch ++ ':' :: '/' :: '/' :: rest) = rest := by
  unfold dropSchemeL
  rw [splitScheme_sep sch rest h]

/-- Dropping a satisfied prefix of replicated elements. -/
theorem dropWhile_replicate_append (p : Char → Bool) (a : Char) (hpa : p a = true)
    (k : Nat) (l : List Char) :
    List.dropWhile p (List.replicate k a ++ l) = List.dropWhile p l := by
  induction k with
  | zero => simp
  | succ n ih => simp [List.replicate_succ, List.dropWhile_cons, hpa, ih]

/-- `strings.TrimRight _ "/"` erases exactly the appended trailing
slashes. -/
theorem trimTrailingSlashes_append_replicate (x : List Char) (k : Nat) :
    trimTrailingSlashes (x ++ List.replicate k '/') = trimTrailingSlashes x := by
  unfold trimTrailingSlashes
  rw [List.reverse_append, List.reverse_replicate,
      dropWhile_replicate_append _ '/' (by decide)]

/-- `strings.TrimRight _ "/"` is the identity on a list not ending in a
slash. -/
theorem trimTrailingSlashes_eq_self (x : List Char) (h : x.getLast? ≠ some '/') :
    trimTrailingSlashes x = x := by
  unfold trimTrailingSlashes
  rcases hx : x.reverse with _ | ⟨a, t⟩
  · simp [List.reverse_eq_nil_iff.mp hx]
  · have ha : x.getLast? = some a := by
      rw [← List.head?_reverse, hx]; rfl
    have ha2 : ¬(a = '/') := fun hh => h (by rw [ha, hh])
    rw [List.dropWhile_cons, if_neg (by simpa using ha2), ← hx,
        List.reverse_reverse]

/-- Unfolding equation of `noDoubleSlashB` at two visible heads. -/
theorem noDoubleSlashB_cons_cons (a b : Char) (l : List Char) :
    noDoubleSlashB (a :: b :: l) =
      (!(a == '/' && b == '/') && noDoubleSlashB (b :: l)) := rfl

/-- Adjacent-slash freedom is preserved by concatenation when both parts
are free and the junction does not put two slashes together. -/
theorem noDoubleSlashB_append (a : List Char) :
    ∀ b : List Char, noDoubleSlashB a = true → noDoubleSlashB b = true →
      (a.getLast? = some '/' → b.head? ≠ some '/') →
      noDoubleSlashB (a ++ b) = true := by
  induction a with
  | nil => intro b _ hb _; simpa using hb
  | cons x t ih =>
    intro b ha hb hab
    cases t with
    | nil =>
      cases b with
      | nil => simpa using ha
      | cons y u =>
        have hxy : ¬(x = '/' ∧ y = '/') := by
          rintro ⟨hx, hy⟩
          exact hab (by simp [hx]) (by simp [hy])
        rcases Decidable.em (x = '/') with h | h <;>
          rcases Decidable.em (y = '/') with h' | h'
        · exact absurd ⟨h, h'⟩ hxy
        · simpa [List.singleton_append, noDoubleSlashB_cons_cons, h, h'] using hb
        · simpa [List.singleton_append, noDoubleSlashB_cons_cons, h, h'] using hb
        · simpa [List.singleton_append, noDoubleSlashB_cons_cons, h, h'] using hb
    | cons y t' =>
      have ha' := ha
      rw [noDoubleSlashB_cons_cons, Bool.and_eq_true] at ha'
      have hlast : (y :: t').getLast? = some '/' → b.head? ≠ some '/' := by
        intro hy
        exact hab (by rw [List.getLast?_cons_cons]; exact hy)
      have ihh := ih b ha'.2 hb hlast
      show noDoubleSlashB (x :: y :: (t' ++ b)) = true
      rw [noDoubleSlashB_cons_cons, ha'.1]
      simpa using ihh

/-- `normalizeServerL` on a string with no scheme separator prefixes
"https://" before trimming. -/
theorem normalizeServerL_of_none (s : List Char) (h : splitScheme s = none) :
    normalizeServerL s = trimTrailingSlashes ("https://".data ++ s) := by
  unfold normalizeServerL
  rw [h]

/-- `normalizeServerL` on a string with a scheme separator only trims. -/
theorem normalizeServerL_of_some (s : List Char) (q : List Char × List Char)
    (h : splitScheme s = some q) :
    normalizeServerL s = trimTrailingSlashes s := by
  unfold normalizeServerL
  rw [h]

/-- C5 counterexample: construction does not strip one trailing slash —
`strings.TrimRight(server, "/")` strips them all: the server input
"https://h//" normalizes to "https://h", not to "https://h/" as removing
exactly one trailing slash would give. -/
theorem normalizeServer_strips_all_trailing_slashes :
    normalizeServer "https://h//" = "https://h" ∧
    normalizeServer "https://h//" ≠ "https://h/" := by
  decide

/-- C5 (amended): construction normalizes the server URL — defaulting a
missing scheme to https and stripping all trailing slashes — and
normalizes a non-empty authPath to start with "/", so that the request
URL formed as server + authPath contains no double slash beyond the
scheme separator, regardless of the number of trailing slashes in the
server input and of a missing leading slash in the authPath input. The
server input is an optional scheme `sch` with its "://" separator, a
core with no adjacent slashes that neither starts nor ends with a slash,
and `k` trailing slashes; the authPath input is `p` with or without its
leading slash. -/
theorem authURL_no_double_slash (sch core p : List Char) (k : Nat)
    (hasScheme leadSlash : Bool)
    (hsch1 : ':' ∉ sch) (hsch2 : sch ≠ [])
    (hcore0 : core ≠ [])
    (hcore1 : noDoubleSlashB core = true)
    (hcore2 : core.getLast? ≠ some '/')
    (hcore3 : core.head? ≠ some '/')
    (hcore4 : hasScheme = false → ':' ∉ core)
    (hp1 : noDoubleSlashB p = true)
    (hp2 : p.head? ≠ some '/') :
    noDoubleSlashB (dropSchemeL
      (normalizeServerL
        ((if hasScheme = true then sch ++ ':' :: '/' :: '/' :: [] else []) ++
          core ++ List.replicate k '/') ++
        normalizeAuthPathL (if leadSlash = true then '/' :: p else p))) = true ∧
    (dropSchemeL
      (normalizeServerL
        ((if hasScheme = true then sch ++ ':' :: '/' :: '/' :: [] else []) ++
          core ++ List.replicate k '/') ++
        normalizeAuthPathL (if leadSlash = true then '/' :: p else p))).head? ≠
      some '/' := by
  have hlit : "https://".data = "https".data ++ [':', '/', '/'] := by decide
  have hSnc : ':' ∉ (if hasScheme = true then sch else "https".data) := by
    cases hasScheme
    · simp only [Bool.false_eq_true, if_false]
      decide
    · simpa using hsch1
  have hsrv : normalizeServerL
      ((if hasScheme = true then sch ++ ':' :: '/' :: '/' :: [] else []) ++
        core ++ List.replicate k '/') =
      ((if hasScheme = true then sch else "https".data) ++ [':', '/', '/']) ++ core := by
    cases hasScheme
    · have hnos : ':' ∉ core ++ List.replicate k '/' := by
        intro hmem
        rcases List.mem_append.mp hmem with hm | hm
        · exact (hcore4 rfl) hm
        · exact absurd (List.eq_of_mem_replicate hm) (by decide)
      have hnone : splitScheme (core ++ List.replicate k '/') = none :=
        splitSchemeAux_none _ hnos []
      simp only [Bool.false_eq_true, if_false, List.nil_append]
      rw [normalizeServerL_of_none _ hnone]
      have h1 : "https://".data ++ (core ++ List.replicate k '/') =
          (("https".data ++ [':', '/', '/']) ++ core) ++ List.replicate k '/' := by
        rw [hlit]; simp [List.append_assoc]
      rw [h1, trimTrailingSlashes_append_replicate,
        trimTrailingSlashes_eq_self _
          (by rw [List.getLast?_append_of_ne_nil _ hcore0]; exact hcore2)]
    · simp only [eq_self_iff_true, if_true]
      have hform : (sch ++ ':' :: '/' :: '/' :: []) ++ core ++ List.replicate k '/' =
          sch ++ ':' :: '/' :: '/' :: (core ++ List.replicate k '/') := by
        simp [List.append_assoc]
      have hsome : splitScheme (sch ++ ':' :: '/' :: '/' :: (core ++ List.replicate k '/')) =
          some (sch, core ++ List.replicate k '/') := splitScheme_sep sch _ hsch1
      rw [hform, normalizeServerL_of_some _ _ hsome]
      have h1 : sch ++ ':' :: '/' :: '/' :: (core ++ List.replicate k '/') =
          ((sch ++ [':', '/', '/']) ++ core) ++ List.replicate k '/' := by
        simp [List.append_assoc]
      rw [h1, trimTrailingSlashes_append_replicate,
        trimTrailingSlashes_eq_self _
          (by rw [List.getLast?_append_of_ne_nil _ hcore0]; exact hcore2)]
  have hdrop : ∀ ap : List Char,
      dropSchemeL ((((if hasScheme = true then sch else "https".data) ++ [':', '/', '/']) ++
        core) ++ ap) = core ++ ap := by
    intro ap
    have hform : (((if hasScheme = true then sch else "https".data) ++ [':', '/', '/']) ++
        core) ++ ap =
        (if hasScheme = true then sch else "https".data) ++ ':' :: '/' :: '/' :: (core ++ ap) := by
      simp [List.append_assoc]
    rw [hform]
    exact dropSchemeL_sep _ _ hSnc
  have hheadcat : ∀ ap : List Char, (core ++ ap).head? ≠ some '/' := by
    intro ap
    cases core with
    | nil => exact absurd rfl hcore0
    | cons c cs => simpa using hcore3
  have hap : normalizeAuthPathL (if leadSlash = true then '/' :: p else p) = [] ∨
      normalizeAuthPathL (if leadSlash = true then '/' :: p else p) = '/' :: p := by
    cases leadSlash
    · rcases Decidable.em (p = []) with hpe | hpe
      · left; simp [normalizeAuthPathL, hpe]
      · right; simp [normalizeAuthPathL, hpe, hp2]
    · right; simp [normalizeAuthPathL]
  rcases hap with hap | hap <;> rw [hsrv, hap, hdrop]
  · rw [List.append_nil]
    exact ⟨hcore1, hcore3⟩
  · have hApGood : noDoubleSlashB ('/' :: p) = true := by
      cases p with
      | nil => rfl
      | cons y u =>
        have hy : ¬(y = '/') := fun hh => hp2 (by simp [hh])
        rw [noDoubleSlashB_cons_cons]
        simp [hy, hp1]
    refine ⟨?_, hheadcat ('/' :: p)⟩
    exact noDoubleSlashB_append core ('/' :: p) hcore1 hApGood
      (fun hl => absurd hl hcore2)

/-- C5 witness: the amended theorem applied at the concrete server input
"https://h//" (scheme https, core "h", two trailing slashes) and the
authPath input "auth" (leading slash missing). -/
theorem authURL_no_double_slash_witness :
    noDoubleSlashB (dropSchemeL
      (normalizeServerL "https://h//".data ++ normalizeAuthPathL "auth".data)) = true ∧
    (dropSchemeL
      (normalizeServerL "https://h//".data ++ normalizeAuthPathL "auth".data)).head? ≠
      some '/' := by
  have heq : ((if (true : Bool) = true then "https".data ++ ':' :: '/' :: '/' :: []
        else ([] : List Char)) ++ ['h'] ++ List.replicate 2 '/') = "https://h//".data := by
    decide
  have heq2 : (if (false : Bool) = true then '/' :: "auth".data else "auth".data) =
      "auth".data := by decide
  have h := authURL_no_double_slash "https".data ['h'] "auth".data 2 true false
    (by decide) (by decide) (by decide) (by decide) (by decide) (by decide)
    (by decide) (by decide) (by decide)
  rw [heq, heq2] at h
  exact h

end OcDemo
